import Mathlib

/-!
Shallow embedding of the network-discovery subsystem and the SSH WebSocket
relay of the `raspi_deployer_starter` backend
(`app/main.py`, `app/ssh_ws.py`, `app/auth.py`).

Conventions of the embedding:
* Python strings are Lean `String`s; where character-by-character reasoning is
  needed we work on `List Char` (the `.data` of a `String`).
* External collaborators (the `ping`/`arp` subprocesses, the TCP probe, the
  reverse-DNS lookup, the JWT decoder of the `jwt` library) are oracles passed
  in as functions; everything written in the repository itself is translated
  directly.
* Fallible Python code is modelled with `Except`; an uncaught Python exception
  is an `.error` value.
-/

namespace RaspiDeployer

/-! ## Basic string helpers mirroring Python primitives -/

/-- Python `s.startswith(p)` on character lists (first argument the string,
second the pattern). -/
def pyStartsWith : List Char → List Char → Bool
  | _, [] => true
  | [], _ :: _ => false
  | c :: cs, p :: ps => c = p && pyStartsWith cs ps

/-- Python `sub in hay` (substring containment) on character lists. -/
def listContains : List Char → List Char → Bool
  | [], sub => sub.isEmpty
  | hay@(_ :: t), sub => pyStartsWith hay sub || listContains t sub

/-- Python `s.strip()` on character lists: drop leading and trailing
whitespace. -/
def pyStripChars (s : List Char) : List Char :=
  ((s.dropWhile Char.isWhitespace).reverse.dropWhile Char.isWhitespace).reverse

/-- Python `s.strip()`. -/
def pyStrip (s : String) : String := ⟨pyStripChars s.data⟩

/-- Python `s.lower()` (ASCII, which covers every string the code lowers). -/
def pyLower (s : String) : String := ⟨s.data.map Char.toLower⟩

/-- Python `s.split(sep)` for a one-character separator, on character lists;
like Python's `split`, adjacent separators produce empty fields. -/
def splitOnChar (sep : Char) : List Char → List (List Char)
  | [] => [[]]
  | c :: rest =>
    if c = sep then [] :: splitOnChar sep rest
    else
      match splitOnChar sep rest with
      | [] => [[c]]
      | w :: ws => (c :: w) :: ws

/-- Python `s.split(sep)` for a one-character separator. -/
def pySplit (s : String) (sep : Char) : List String :=
  (splitOnChar sep s.data).map (fun l => ⟨l⟩)

/-- Value of a list of decimal digits. -/
def digitsToNat (s : List Char) : Nat :=
  s.foldl (fun acc c => acc * 10 + (c.toNat - 48)) 0

/-! ## MAC classification (main.py lines 111-119 and 611-626)

`RPI_MAC_PREFIXES` is the fixed allowlist of Raspberry-Pi OUIs; in
`discover_by_arp` a MAC read from the ARP table is normalised with
`mac.replace("-", ":").upper()` and classified with
`any(mac.startswith(prefix) for prefix in RPI_MAC_PREFIXES)`. -/

def RPI_MAC_PREFIXES : List (List Char) :=
  ["28:CD:C1".data, "B8:27:EB".data, "DC:A6:32".data, "E4:5F:01".data,
   "D8:3A:DD".data, "2C:CF:67".data, "88:A2:9E".data]

/-- One character of `mac.replace("-", ":").upper()`: `replace` with a
single-character pattern and replacement acts character-wise, and `.upper()`
on the hex digits and separators of a MAC is ASCII upper-casing. -/
def macNormalizeChar (c : Char) : Char := (if c = '-' then ':' else c).toUpper

/-- `mac.replace("-", ":").upper()` on the character list of the MAC. -/
def macNormalize (s : List Char) : List Char := s.map macNormalizeChar

/-- The classification pipeline of `discover_by_arp`: normalise, then test the
allowlist with `startswith`. -/
def isRaspberryPiMac (mac : List Char) : Bool :=
  RPI_MAC_PREFIXES.any (fun p => pyStartsWith (macNormalize mac) p)

/-! ## ScanRequest validation (main.py lines 124-144)

`DiscoverRequest` declares `timeout: Field(1.5, gt=0.1, le=10.0)` and
`max_concurrency: Field(100, ge=1, le=512)`.  The float is modelled as `ℚ`
(both sides of every pydantic comparison here are short decimal literals, so
rational arithmetic is faithful), the int as `ℤ`. -/

inductive ScanMethod
  | ssh
  | ping
  | arp
deriving DecidableEq, Repr

structure DiscoverRequest where
  scan_method : ScanMethod := .ssh
  network : Option String := none
  hosts : Option (List String) := none
  timeout : ℚ := 3 / 2
  max_concurrency : ℤ := 100
  include_reverse_dns : Bool := true
deriving DecidableEq, Repr

/-- pydantic constraint `gt=0.1, le=10.0` on `timeout`. -/
def timeoutAccepted (t : ℚ) : Bool := decide (1 / 10 < t) && decide (t ≤ 10)

/-- pydantic constraint `ge=1, le=512` on `max_concurrency`. -/
def maxConcurrencyAccepted (m : ℤ) : Bool := decide (1 ≤ m) && decide (m ≤ 512)

/-- A `DiscoverRequest` passes pydantic field validation iff both constrained
fields are in range. -/
def discoverRequestAccepted (p : DiscoverRequest) : Bool :=
  timeoutAccepted p.timeout && maxConcurrencyAccepted p.max_concurrency

/-! ## Target resolution (`get_targets_from_request`, main.py lines 528-566)

The `ipaddress` stdlib calls are embedded for the IPv4 dotted-quad forms the
panel works with (`a.b.c.d` and `a.b.c.d/prefixlen`); Python rejects octets
with leading zeros, and `strict=False` masks the host bits away. -/

/-- A decimal numeral as Python's `ipaddress` accepts it: nonempty, digits
only, no leading zero (unless the numeral is exactly "0"). -/
def decimalNoLeadingZeros (s : String) : Option Nat :=
  if s.data ≠ [] ∧ s.data.all Char.isDigit ∧ (s.data.head? = some '0' → s.data.length = 1)
  then some (digitsToNat s.data) else none

def parseOctet (s : String) : Option Nat := do
  let n ← decimalNoLeadingZeros s
  if n ≤ 255 then pure n else none

/-- Python `ipaddress.ip_address(s)` on IPv4 dotted-quad input; the 32-bit
value on success, `none` for the `ValueError` cases. -/
def ip_address (s : String) : Option Nat :=
  match pySplit s '.' with
  | [a, b, c, d] => do
    let a ← parseOctet a
    let b ← parseOctet b
    let c ← parseOctet c
    let d ← parseOctet d
    pure (((a * 256 + b) * 256 + c) * 256 + d)
  | _ => none

structure IPv4Network where
  netAddr : Nat
  prefixLen : Nat
deriving DecidableEq, Repr

/-- Python `ipaddress.ip_network(s, strict=False)` on IPv4 `addr` or
`addr/prefixlen` input; `strict=False` zeroes the host bits. -/
def ip_network (s : String) : Option IPv4Network :=
  match pySplit s '/' with
  | [a] => (ip_address a).map (fun v => ⟨v, 32⟩)
  | [a, p] => do
    let v ← ip_address a
    let pl ← decimalNoLeadingZeros p
    if pl ≤ 32 then pure ⟨v / 2 ^ (32 - pl) * 2 ^ (32 - pl), pl⟩ else none
  | _ => none

/-- `network.num_addresses`. -/
def num_addresses (n : IPv4Network) : Nat := 2 ^ (32 - n.prefixLen)

def natToIPv4String (v : Nat) : String :=
  toString (v / 2 ^ 24 % 256) ++ "." ++ toString (v / 2 ^ 16 % 256) ++ "."
    ++ toString (v / 2 ^ 8 % 256) ++ "." ++ toString (v % 256)

/-- Python `network.hosts()`: the usable addresses (network and broadcast
addresses excluded); for /31 and /32 every address is yielded. -/
def networkHosts (n : IPv4Network) : List String :=
  if 31 ≤ n.prefixLen then
    (List.range (num_addresses n)).map (fun i => natToIPv4String (n.netAddr + i))
  else
    (List.range (num_addresses n - 2)).map (fun i => natToIPv4String (n.netAddr + 1 + i))

/-- Error taxonomy of `get_targets_from_request`; every branch raises
`HTTPException(status_code=400, ...)` and the constructors record which detail
message family was used. -/
inductive TargetsError
  | invalidNetwork
  | networkTooLarge (numAddresses : Nat)
  | invalidAddress (host : String)
  | noTargets
deriving DecidableEq, Repr

def TargetsError.status_code : TargetsError → Nat := fun _ => 400

/-- Network half of `get_targets_from_request`: `if payload.network:` (the
empty string is falsy and skips the block), parse, raise 400 when
`num_addresses > 4096`, otherwise collect `network.hosts()`.  The
`HTTPException` for an oversized network is raised inside the `try` but is not
a `ValueError`, so the `except` clause does not catch it. -/
def networkTargets (p : DiscoverRequest) : Except TargetsError (List String) :=
  match p.network with
  | none => .ok []
  | some s =>
    if s = "" then .ok []
    else
      match ip_network s with
      | none => .error .invalidNetwork
      | some net =>
        if 4096 < num_addresses net then .error (.networkTooLarge (num_addresses net))
        else .ok (networkHosts net)

/-- Hosts half: each entry is stripped; blank entries are skipped with
`continue`; the first non-blank entry that fails `ipaddress.ip_address`
raises; valid entries are appended stripped. -/
def hostTargets : List String → Except TargetsError (List String)
  | [] => .ok []
  | h :: t =>
    if pyStrip h = "" then hostTargets t
    else if (ip_address (pyStrip h)).isSome then (hostTargets t).map (fun r => pyStrip h :: r)
    else .error (.invalidAddress (pyStrip h))

/-- Python `list(dict.fromkeys(targets))`: order-preserving dedup keeping the
first occurrence. -/
def dedupKeepFirst (seen : List String) : List String → List String
  | [] => []
  | x :: xs =>
    if x ∈ seen then dedupKeepFirst seen xs else x :: dedupKeepFirst (x :: seen) xs

/-- `get_targets_from_request` (main.py lines 528-566): network hosts first,
then the explicit hosts, order-preserving dedup, and the must-supply check. -/
def get_targets_from_request (p : DiscoverRequest) : Except TargetsError (List String) :=
  match networkTargets p with
  | .error e => .error e
  | .ok netT =>
    match hostTargets (p.hosts.getD []) with
    | .error e => .error e
    | .ok hostT =>
      let u := dedupKeepFirst [] (netT ++ hostT)
      if u = [] then .error .noTargets else .ok u

/-! ## SSE events (`stream_event`, `DiscoverResult`) -/

inductive Status
  | active
  | inactive
deriving DecidableEq, Repr

structure DiscoverResult where
  ip : String
  status : Status
  method : String
  hostname : Option String := none
  mac : Option String := none
  ssh_banner : Option String := none
  is_raspberry_pi : Bool := false
  details : String
deriving DecidableEq, Repr

/-- One Server-Sent Event.  `stream_event` serialises these into
`"event: <type>" + "data: <json>"` frames; no claim inspects the frame text
beyond the event type and payload, so the embedding keeps them structured. -/
inductive Event
  | log (message : String)
  | result (r : DiscoverResult)
deriving DecidableEq, Repr

def isResultEvent : Event → Bool
  | .result _ => true
  | .log _ => false

def countResults (evs : List Event) : Nat := (evs.filter isResultEvent).length

/-- Number of `result` events carrying a given IP. -/
def resultCountFor (ip : String) (evs : List Event) : Nat :=
  evs.countP (fun e => match e with
    | .result r => r.ip == ip
    | .log _ => false)

/-! ## ARP strategy (`discover_by_arp`, main.py lines 580-632) -/

/-- One `(ip, mac)` pair the regex `findall` extracts from the `arp -a`
output. -/
structure ArpEntry where
  ip : String
  mac : String
deriving DecidableEq, Repr

/-- The active result built for a matching ARP entry: mac normalised, the
Raspberry-Pi flag computed on the normalised mac with the OUI allowlist. -/
def mkArpActive (e : ArpEntry) : DiscoverResult :=
  let mac : String := ⟨macNormalize e.mac.data⟩
  { ip := e.ip, status := .active, method := "arp", mac := some mac,
    is_raspberry_pi := RPI_MAC_PREFIXES.any (fun p => pyStartsWith mac.data p),
    details := "MAC: " ++ mac }

def mkArpInactive (ip : String) : DiscoverResult :=
  { ip := ip, status := .inactive, method := "arp", details := "No responde a ARP" }

/-- Events of `discover_by_arp` as a function of the requested targets and the
parsed ARP entries.  Phase 1 (the cache-populating pings, whose outcomes are
discarded) contributes only the two log events.  Entries whose IP is not among
the targets are skipped; matching entries are emitted in table order with no
per-target dedup; then every target not in `found_hosts` is emitted inactive
(the Python `set(targets) - found_hosts` iteration is modelled in first-seen
target order; the claims about it are order-insensitive). -/
def discover_by_arp (targets : List String) (entries : List ArpEntry) : List Event :=
  let matching := entries.filter (fun e => decide (e.ip ∈ targets))
  let found := matching.map ArpEntry.ip
  [Event.log "Iniciando escaneo ARP...",
   Event.log "Tabla ARP actualizada. Obteniendo datos..."]
    ++ matching.map (fun e => Event.result (mkArpActive e))
    ++ ((dedupKeepFirst [] targets).filter (fun ip => decide (ip ∉ found))).map
        (fun ip => Event.result (mkArpInactive ip))

/-! ## Ping strategy (`discover_by_ping`, main.py lines 635-663) -/

/-- The ping command of `discover_by_ping`, built from the platform alone with
a fixed per-packet timeout (500 ms on Windows, 0.5 s elsewhere). -/
def ping_command (isWindows : Bool) : String :=
  if isWindows then "ping -n 1 -w 500" else "ping -c 1 -W 0.5"

/-- The activity heuristic: `"ttl" in stdout.lower() or "bytes from" in
stdout.lower()`. -/
def ping_is_active (stdout : String) : Bool :=
  listContains (pyLower stdout).data "ttl".data
    || listContains (pyLower stdout).data "bytes from".data

/-- Per-target body of `worker` in `discover_by_ping` (the code inside
`async with semaphore:`), with `run_command` as the oracle `run`.  The
`payload` closure variable is in scope in the source but never read by this
worker. -/
def pingWorkerEvents (isWindows : Bool) (run : String → String)
    (_payload : DiscoverRequest) (ip : String) : List Event :=
  let stdout := run (ping_command isWindows ++ " " ++ ip)
  let active := ping_is_active stdout
  [Event.log ("Haciendo ping a " ++ ip ++ "..."),
   Event.result { ip := ip, status := if active then .active else .inactive,
                  method := "ping",
                  details := if active then "Responde a Ping" else "No responde a Ping" }]

/-! ## SSH strategy (`discover_by_ssh`, main.py lines 666-726) -/

deriving instance DecidableEq for Except

/-- Outcome of the connection phase
`asyncio.wait_for(asyncio.open_connection(ip, 22), payload.timeout)`: a
`TimeoutError`, an `OSError`, or a stream; in the connected case `banner`
carries the outcome of the 0.5 s banner `readline` (`Except.error ()` when
that read itself raised a `TimeoutError`/`OSError`, which escapes the inner
`try/finally` into the outer `except`). -/
inductive ConnectOutcome
  | failTimeout
  | failOsError
  | connected (banner : Except Unit String)
deriving DecidableEq, Repr

def sshInactiveResult (ip : String) : DiscoverResult :=
  { ip := ip, status := .inactive, method := "ssh",
    details := "Puerto 22 cerrado o filtrado" }

/-- Per-target body of `worker` in `discover_by_ssh` (the code inside
`async with semaphore:`), with probe and reverse-DNS oracles (`dns ip = none`
models `socket.herror`/`socket.gaierror`).  A connect failure keeps the
prepared inactive `result_data` and the exception is swallowed by
`except (asyncio.TimeoutError, OSError): pass`.  A banner-read failure is also
swallowed there, but only after `status` was set to "active", so that path
skips the Raspberry-Pi heuristics and the reverse-DNS lookup. -/
def sshWorkerEvents (probe : String → ConnectOutcome) (dns : String → Option String)
    (payload : DiscoverRequest) (ip : String) : List Event :=
  let logEv := Event.log ("Probando SSH en " ++ ip ++ "...")
  match probe ip with
  | .failTimeout => [logEv, Event.result (sshInactiveResult ip)]
  | .failOsError => [logEv, Event.result (sshInactiveResult ip)]
  | .connected (.error _) =>
      [logEv, Event.result { ip := ip, status := .active, method := "ssh",
                             details := "Puerto 22 abierto" }]
  | .connected (.ok raw) =>
      let banner := pyStrip raw
      let details := if banner = "" then "Puerto 22 abierto"
        else "Puerto 22 abierto (" ++ banner ++ ")"
      let isRpiBanner := listContains (pyLower banner).data "raspbian".data
      let hostname := if payload.include_reverse_dns then dns ip else none
      let isRpi := match hostname with
        | some h => isRpiBanner || listContains (pyLower h).data "raspberry".data
        | none => isRpiBanner
      [logEv, Event.result { ip := ip, status := .active, method := "ssh",
                             hostname := hostname,
                             ssh_banner := if banner = "" then none else some banner,
                             is_raspberry_pi := isRpi, details := details }]

/-! ## The strategy drivers and `discover_stream`

Both `discover_by_ping` and `discover_by_ssh` drive their workers with

  `for task in asyncio.as_completed([worker(ip) for ip in targets]):`
  `    async for item in task.result(): yield item`

`worker` contains `yield`, so `worker(ip)` is an async generator object;
`asyncio.as_completed` immediately wraps every element of its argument with
`asyncio.ensure_future`, which raises `TypeError` for anything that is not a
future, a coroutine or an awaitable — and an async generator object is none
of these. -/

inductive PyError
  | typeError (msg : String)
deriving DecidableEq, Repr

/-- The classification `asyncio.ensure_future` performs on its argument. -/
inductive PyAwaitable
  | coroutine
  | future
  | asyncGenerator
deriving DecidableEq, Repr

def ensure_future : PyAwaitable → Except PyError Unit
  | .asyncGenerator =>
      .error (.typeError "An asyncio.Future, a coroutine or an awaitable is required")
  | _ => .ok ()

/-- `asyncio.as_completed` wraps every element with `ensure_future` before
yielding anything, so one non-awaitable element faults the whole call. -/
def as_completed (l : List PyAwaitable) : Except PyError Unit :=
  l.foldr (fun a acc => match ensure_future a with
    | .error e => .error e
    | .ok _ => acc) (.ok ())

/-- The `worker` inner functions of `discover_by_ping` and `discover_by_ssh`
contain `yield`, so calling one produces an async generator object. -/
def workerObjectKind : PyAwaitable := .asyncGenerator

/-- Stream of `discover_by_ping`: the opening log is yielded; resuming the
generator then evaluates `asyncio.as_completed` over the worker objects, which
raises `TypeError` for every nonempty target list, so the worker bodies
(`pingWorkerEvents`) are never reached; with an empty target list the driver
loop has nothing to iterate and the generator just ends. -/
def discover_by_ping (_isWindows : Bool) (_run : String → String)
    (targets : List String) (_payload : DiscoverRequest) : List Event × Option PyError :=
  match as_completed (targets.map (fun _ => workerObjectKind)) with
  | .error e => ([Event.log "Iniciando escaneo con Ping..."], some e)
  | .ok _ => ([Event.log "Iniciando escaneo con Ping..."], none)

/-- Stream of `discover_by_ssh`: same driver shape as `discover_by_ping`. -/
def discover_by_ssh (_probe : String → ConnectOutcome) (_dns : String → Option String)
    (targets : List String) (_payload : DiscoverRequest) : List Event × Option PyError :=
  match as_completed (targets.map (fun _ => workerObjectKind)) with
  | .error e => ([Event.log "Iniciando escaneo de puerto SSH (22)..."], some e)
  | .ok _ => ([Event.log "Iniciando escaneo de puerto SSH (22)..."], none)

/-- The external world one scan runs against. -/
structure NetEnv where
  isWindows : Bool
  run : String → String
  probe : String → ConnectOutcome
  dns : String → Option String
  arpEntries : List ArpEntry

/-- Body of `event_generator` inside `discover_stream`, for a client that
stays connected (`request.is_disconnected()` false throughout): iterate the
chosen strategy's generator; when it finishes normally append the
`FIN_ESCANEADO` sentinel log; when it raises, the exception propagates out of
the generator and no sentinel is emitted. -/
def event_generator (env : NetEnv) (payload : DiscoverRequest) (targets : List String) :
    List Event × Option PyError :=
  let out :=
    match payload.scan_method with
    | .ssh => discover_by_ssh env.probe env.dns targets payload
    | .ping => discover_by_ping env.isWindows env.run targets payload
    | .arp => (discover_by_arp targets env.arpEntries, none)
  match out with
  | (evs, none) => (evs ++ [Event.log "FIN_ESCANEADO"], none)
  | (evs, some e) => (evs, some e)

/-- `POST /api/discover`: resolve targets (a `TargetsError` is the 400 raised
before any streaming), then stream the generator. -/
def discover_stream (env : NetEnv) (payload : DiscoverRequest) :
    Except TargetsError (List Event × Option PyError) :=
  match get_targets_from_request payload with
  | .error e => .error e
  | .ok targets => .ok (event_generator env payload targets)

/-! ## The concurrency governor (main.py lines 643-663, 672-726)

Each strategy builds `semaphore = asyncio.Semaphore(payload.max_concurrency)`
and each per-target worker wraps its whole body — network operation included —
in `async with semaphore:`, which acquires on entry and releases on every
exit, normal or exceptional.  The scan is modelled as an interleaving of
per-task acquire and release steps: a task may acquire only while fewer than
`cap` tasks hold the semaphore, and a holding task may release at any time
(covering completion, error and timeout alike). -/

inductive ProbePhase
  | pending
  | holding
  | done
deriving DecidableEq, Repr

/-- Number of workers currently between semaphore acquire and release - the
in-flight probe operations. -/
def inFlight (s : List ProbePhase) : Nat := s.countP (fun p => p == ProbePhase.holding)

inductive ScanStep (cap : Nat) : List ProbePhase → List ProbePhase → Prop
  | acquire (s : List ProbePhase) (i : Nat) (hi : s.get? i = some ProbePhase.pending)
      (hcap : inFlight s < cap) : ScanStep cap s (s.set i ProbePhase.holding)
  | release (s : List ProbePhase) (i : Nat) (hi : s.get? i = some ProbePhase.holding) :
      ScanStep cap s (s.set i ProbePhase.done)

/-- The states one scan over `targets` can reach from the all-pending start. -/
def ScanReachable (cap : Nat) (targets : List String) (s : List ProbePhase) : Prop :=
  Relation.ReflTransGen (ScanStep cap) (targets.map fun _ => ProbePhase.pending) s

/-! ## Auth helpers (app/auth.py) -/

inductive Role
  | readonly
  | admin
deriving DecidableEq, Repr

def roleLevel : Role → Nat
  | .readonly => 0
  | .admin => 1

/-- `_role_allows(actual, required)`. -/
def role_allows (actual required : Role) : Bool := roleLevel required ≤ roleLevel actual

structure AuthContext where
  subject : String
  role : Role
deriving DecidableEq, Repr

/-- The two settings `_authenticate_token`/`_decode_jwt` read; the empty
string models an unset value (both are falsy-checked in the source). -/
structure AuthSettings where
  app_token : String
  jwt_secret : String

/-- Outcome of `jwt.decode(token, secret, algorithms=[...])`, the external JWT
library call: expired, otherwise invalid, or a payload with its optional
`role` and `sub` claims. -/
inductive JwtOutcome
  | expired
  | invalid
  | payload (role : Option String) (sub : Option String)

structure HTTPExc where
  status_code : Nat
  detail : String
deriving DecidableEq, Repr

/-- `_decode_jwt`: unset secret raises 401; an expired or invalid token raises
401; a payload whose `role` claim (default "readonly") is outside the role
table raises 403; otherwise the `AuthContext`. -/
def _decode_jwt (st : AuthSettings) (decode : String → JwtOutcome) (token : String) :
    Except HTTPExc AuthContext :=
  if st.jwt_secret = "" then .error ⟨401, "JWT no configurado en el servidor."⟩
  else
    match decode token with
    | .expired => .error ⟨401, "Token expirado."⟩
    | .invalid => .error ⟨401, "Token inválido."⟩
    | .payload role? sub? =>
      let role := role?.getD "readonly"
      if role = "readonly" then .ok ⟨sub?.getD "", .readonly⟩
      else if role = "admin" then .ok ⟨sub?.getD "", .admin⟩
      else .error ⟨403, "Rol no permitido."⟩

/-- `_authenticate_token`: falsy token yields no context; the static app token
short-circuits to a legacy admin context; anything else goes through
`_decode_jwt`, whose `HTTPException` is re-raised. -/
def _authenticate_token (st : AuthSettings) (decode : String → JwtOutcome)
    (raw : Option String) : Except HTTPExc (Option AuthContext) :=
  match raw with
  | none => .ok none
  | some t =>
    if t = "" then .ok none
    else if pyStrip st.app_token ≠ "" ∧ t = pyStrip st.app_token then
      .ok (some ⟨"legacy", .admin⟩)
    else (_decode_jwt st decode t).map some

/-- `validate_token(raw_token, required)`: `False` for a missing token,
`_role_allows` on the context otherwise — and note the `_decode_jwt`
`HTTPException` propagates through it uncaught. -/
def validate_token (st : AuthSettings) (decode : String → JwtOutcome)
    (raw : Option String) (required : Role) : Except HTTPExc Bool :=
  match _authenticate_token st decode raw with
  | .error e => .error e
  | .ok none => .ok false
  | .ok (some ctx) => .ok (role_allows ctx.role required)

/-- `_extract_token` of app/ssh_ws.py: strip, drop a case-insensitive
`"bearer "` marker (split at the first space, which a match forces to position
six), strip again, empty becomes `None`. -/
def _extract_token (v : Option String) : Option String :=
  match v with
  | none => none
  | some s =>
    if s = "" then none
    else
      let token := pyStrip s
      let token := if pyStartsWith (pyLower token).data "bearer ".data
        then pyStrip ⟨token.data.drop 7⟩ else token
      if token = "" then none else some token

/-! ## The SSH WebSocket endpoint (app/ssh_ws.py lines 31-116) -/

inductive PumpTask
  | readFromSsh
  | writeToSsh
deriving DecidableEq, Repr

def PumpTask.other : PumpTask → PumpTask
  | .readFromSsh => .writeToSsh
  | .writeToSsh => .readFromSsh

/-- The externally visible operations of `ssh_websocket_endpoint`, in program
order. -/
inductive WsAction
  | closeWs (code : Nat)
  | accept
  | getConn
  | invokeShell
  | cancelTask (t : PumpTask)
  | awaitTask (t : PumpTask)
  | sendText (s : String)
  | connClose
deriving DecidableEq, Repr

/-- How an accepted session plays out: `get_ssh_connection` raises an
`HTTPException` (conn never bound); some other exception escapes after the
connection was obtained (e.g. from `invoke_shell`), with the client either
still connected or already gone; or both pump tasks start and one of them
finishes first. -/
inductive SessionCourse
  | connHttpError (detail : String)
  | unexpectedAfterConn (msg : String) (clientDisconnected : Bool)
  | pumps (firstFinished : PumpTask)
deriving DecidableEq, Repr

structure WsEnv where
  tokenParam : Option String
  settings : AuthSettings
  decode : String → JwtOutcome
  course : SessionCourse
  connIsConnected : Bool

/-- Control flow of `ssh_websocket_endpoint` as the list of actions it
performs, paired with the `HTTPExc` when one escapes the handler — which
happens exactly when `validate_token` itself raises, before `accept` and
before any close frame is sent by this code.  In every branch the `finally`
block runs `conn.close()` only when `conn` was bound and `conn.is_connected`
still holds; after `asyncio.wait(FIRST_COMPLETED)` the pending pump task is
cancelled and awaited before the `finally` teardown. -/
def ssh_websocket_endpoint (env : WsEnv) : List WsAction × Option HTTPExc :=
  let raw := _extract_token env.tokenParam
  match validate_token env.settings env.decode raw .admin with
  | .error e => ([], some e)
  | .ok false => ([WsAction.closeWs 1008], none)
  | .ok true =>
    match env.course with
    | .connHttpError detail =>
        ([WsAction.accept, WsAction.getConn,
          WsAction.sendText ("\r\nError: " ++ detail ++ "\r\n"),
          WsAction.closeWs 1011], none)
    | .unexpectedAfterConn msg clientDisconnected =>
        ([WsAction.accept, WsAction.getConn, WsAction.invokeShell]
          ++ (if clientDisconnected then []
              else [WsAction.sendText ("\r\nAn unexpected error occurred: " ++ msg ++ "\r\n"),
                    WsAction.closeWs 1011])
          ++ (if env.connIsConnected then [WsAction.connClose] else []), none)
    | .pumps first =>
        ([WsAction.accept, WsAction.getConn, WsAction.invokeShell,
          WsAction.cancelTask first.other, WsAction.awaitTask first.other]
          ++ (if env.connIsConnected then [WsAction.connClose] else []), none)

/-- Number of occurrences of one action in an action trace. -/
def countAction (a : WsAction) : List WsAction → Nat
  | [] => 0
  | b :: l => (if b = a then 1 else 0) + countAction a l

/-! # Theorems -/

/-! ## Helper lemmas -/

theorem pyStartsWith_append_self (p r : List Char) : pyStartsWith (p ++ r) p = true := by
  induction p with
  | nil => cases r <;> rfl
  | cons c cs ih => simp [pyStartsWith, ih]

theorem pyStartsWith_append_of_length_eq (p a : List Char) (r : List Char)
    (h : a.length = p.length) : pyStartsWith (a ++ r) p = pyStartsWith a p := by
  induction p generalizing a with
  | nil => cases a <;> simp_all [pyStartsWith]
  | cons c cs ih =>
    cases a with
    | nil => simp at h
    | cons b bs =>
      simp only [List.length_cons, Nat.succ.injEq] at h
      simp [pyStartsWith, ih bs h]

theorem macNormalize_append (a b : List Char) :
    macNormalize (a ++ b) = macNormalize a ++ macNormalize b :=
  List.map_append _ _ _

/-! ## C7: MAC-prefix classification -/

/-- C7: a MAC classifies as Raspberry Pi iff its normalisation (hyphens to
colons, upper-cased) begins with one of the seven fixed OUI allowlist entries;
any MAC beginning with `B8:27:EB` in any letter case with hyphen or colon
separators classifies, and one beginning with `00:11:22` does not. -/
theorem mac_rpi_classification :
    (∀ mac : List Char, isRaspberryPiMac mac = true ↔
        ∃ p ∈ RPI_MAC_PREFIXES, pyStartsWith (macNormalize mac) p = true)
    ∧ (∀ rest : List Char, isRaspberryPiMac ("b8-27-eb".data ++ rest) = true)
    ∧ (∀ rest : List Char, isRaspberryPiMac ("B8:27:Eb".data ++ rest) = true)
    ∧ (∀ rest : List Char, isRaspberryPiMac ("00:11:22".data ++ rest) = false) := by
  refine ⟨fun mac => by simp [isRaspberryPiMac, List.any_eq_true], ?_, ?_, ?_⟩
  · intro rest
    have hpre : macNormalize "b8-27-eb".data = "B8:27:EB".data := by decide
    have hnorm : macNormalize ("b8-27-eb".data ++ rest)
        = "B8:27:EB".data ++ macNormalize rest := by
      rw [macNormalize_append, hpre]
    simp only [isRaspberryPiMac, hnorm]
    exact List.any_eq_true.mpr
      ⟨"B8:27:EB".data, by decide, pyStartsWith_append_self _ _⟩
  · intro rest
    have hpre : macNormalize "B8:27:Eb".data = "B8:27:EB".data := by decide
    have hnorm : macNormalize ("B8:27:Eb".data ++ rest)
        = "B8:27:EB".data ++ macNormalize rest := by
      rw [macNormalize_append, hpre]
    simp only [isRaspberryPiMac, hnorm]
    exact List.any_eq_true.mpr
      ⟨"B8:27:EB".data, by decide, pyStartsWith_append_self _ _⟩
  · intro rest
    have hpre : macNormalize "00:11:22".data = "00:11:22".data := by decide
    have hnorm : macNormalize ("00:11:22".data ++ rest)
        = "00:11:22".data ++ macNormalize rest := by
      rw [macNormalize_append, hpre]
    simp only [isRaspberryPiMac, hnorm]
    refine List.any_eq_false.mpr ?_
    intro p hp
    simp only [RPI_MAC_PREFIXES, List.mem_cons, List.not_mem_nil, or_false] at hp
    rcases hp with rfl | rfl | rfl | rfl | rfl | rfl | rfl <;>
      rw [pyStartsWith_append_of_length_eq _ _ _ (by decide)] <;> decide

/-! ## C9: ScanRequest validation ranges -/

/-- C9 counterexample: `timeout = 0.1` lies in the claimed inclusive range
`[0.1, 10]`, yet a request with that timeout is rejected by the pydantic
validator (`gt=0.1` is strict). -/
theorem scan_request_timeout_boundary_rejected :
    ((1 / 10 : ℚ) ≤ 1 / 10 ∧ (1 / 10 : ℚ) ≤ 10)
    ∧ discoverRequestAccepted { timeout := 1 / 10 } = false := by
  constructor
  · constructor <;> norm_num
  · simp [discoverRequestAccepted, timeoutAccepted]

/-- C9 (amended): a request is accepted by field validation iff its timeout is
strictly greater than 0.1 and at most 10 and its max_concurrency is between 1
and 512 inclusive; every value outside these ranges is rejected. -/
theorem scan_request_validation_ranges :
    ∀ p : DiscoverRequest,
      discoverRequestAccepted p = true ↔
        ((1 / 10 < p.timeout ∧ p.timeout ≤ 10)
          ∧ (1 ≤ p.max_concurrency ∧ p.max_concurrency ≤ 512)) := by
  intro p
  simp [discoverRequestAccepted, timeoutAccepted, maxConcurrencyAccepted, and_assoc]

/-! ## C2: the semaphore bounds in-flight probes -/

theorem inFlight_cons (a : ProbePhase) (t : List ProbePhase) :
    inFlight (a :: t) = inFlight t + (if a == ProbePhase.holding then 1 else 0) := by
  simp only [inFlight, List.countP_cons]

theorem inFlight_set_holding (s : List ProbePhase) (i : Nat)
    (h : s.get? i = some ProbePhase.pending) :
    inFlight (s.set i ProbePhase.holding) = inFlight s + 1 := by
  induction s generalizing i with
  | nil => simp at h
  | cons a t ih =>
    cases i with
    | zero =>
      simp only [List.get?_cons_zero, Option.some.injEq] at h
      subst h
      simp [List.set, inFlight_cons]
    | succ n =>
      simp only [List.get?_cons_succ] at h
      simp only [List.set]
      rw [inFlight_cons, inFlight_cons, ih n h]
      omega

theorem inFlight_set_done (s : List ProbePhase) (i : Nat)
    (h : s.get? i = some ProbePhase.holding) :
    inFlight s = inFlight (s.set i ProbePhase.done) + 1 := by
  induction s generalizing i with
  | nil => simp at h
  | cons a t ih =>
    cases i with
    | zero =>
      simp only [List.get?_cons_zero, Option.some.injEq] at h
      subst h
      simp [List.set, inFlight_cons]
    | succ n =>
      simp only [List.get?_cons_succ] at h
      simp only [List.set]
      rw [inFlight_cons, inFlight_cons, ih n h]
      omega

theorem inFlight_all_pending (targets : List String) :
    inFlight (targets.map fun _ => ProbePhase.pending) = 0 := by
  induction targets with
  | nil => rfl
  | cons a t ih => simpa [List.map, inFlight_cons] using ih

/-- C2: for every scan and every `max_concurrency` in the validated range
[1, 512], in every reachable interleaving of the per-target probe tasks the
number of tasks that have acquired the scan's semaphore and not yet released
it never exceeds `max_concurrency`; a task acquires before its network
operation (its whole body sits inside `async with semaphore:`) and the `with`
block releases on every exit — normal, error or timeout alike, which is why
`ScanStep.release` is enabled unconditionally for a holding task. -/
theorem semaphore_bounds_in_flight (p : DiscoverRequest) (targets : List String)
    (hlo : 1 ≤ p.max_concurrency) (hhi : p.max_concurrency ≤ 512)
    (s : List ProbePhase)
    (hreach : ScanReachable p.max_concurrency.toNat targets s) :
    inFlight s ≤ p.max_concurrency.toNat := by
  unfold ScanReachable at hreach
  induction hreach with
  | refl =>
    rw [inFlight_all_pending]
    exact Nat.zero_le _
  | tail hsteps hstep ih =>
    cases hstep with
    | acquire i hi hcap =>
      rw [inFlight_set_holding _ i hi]
      omega
    | release i hi =>
      have hs := inFlight_set_done _ i hi
      omega

/-- Witness for `semaphore_bounds_in_flight`: a two-target scan with
max_concurrency 2 after one acquisition step. -/
theorem semaphore_bounds_in_flight_witness :
    inFlight ((["10.0.0.1", "10.0.0.2"].map fun _ => ProbePhase.pending).set 0
      ProbePhase.holding) ≤ (2 : ℤ).toNat :=
  semaphore_bounds_in_flight { max_concurrency := 2 } ["10.0.0.1", "10.0.0.2"]
    (by norm_num) (by norm_num) _
    (Relation.ReflTransGen.single
      (ScanStep.acquire (["10.0.0.1", "10.0.0.2"].map fun _ => ProbePhase.pending) 0
        rfl (by decide)))

/-! ## C1: result events and the FIN_ESCANEADO sentinel -/

/-- C1 (code-bug evidence): for a valid one-target request the ping stream
yields only its opening log event — zero `result` events — and then raises
`TypeError`, because `asyncio.as_completed` is applied to the async-generator
objects returned by `worker`; the exception propagates through
`event_generator`, so the `FIN_ESCANEADO` sentinel is never emitted.  The SSH
strategy's driver fails identically. -/
theorem discover_stream_crashes_before_results :
    (discover_stream ⟨false, fun _ => "", fun _ => .failTimeout, fun _ => none, []⟩
        { scan_method := .ping, hosts := some ["192.168.1.10"] }
      = .ok ([Event.log "Iniciando escaneo con Ping..."],
          some (.typeError "An asyncio.Future, a coroutine or an awaitable is required")))
    ∧ (discover_stream ⟨false, fun _ => "", fun _ => .failTimeout, fun _ => none, []⟩
        { scan_method := .ssh, hosts := some ["192.168.1.10"] }
      = .ok ([Event.log "Iniciando escaneo de puerto SSH (22)..."],
          some (.typeError "An asyncio.Future, a coroutine or an awaitable is required")))
    ∧ countResults [Event.log "Iniciando escaneo con Ping..."] = 0
    ∧ Event.log "FIN_ESCANEADO" ∉ [Event.log "Iniciando escaneo con Ping..."] := by
  refine ⟨?_, ?_, rfl, ?_⟩ <;> decide

/-! ## C3: target resolution -/

/-- C3 counterexample: the request below contains the explicit host string
"  ", which is not a parseable IP address, yet resolution succeeds with the
network's hosts: the source strips each entry and skips blank ones with
`continue` instead of raising the invalid-address error the claim demands for
every unparseable host string. -/
theorem resolver_blank_host_not_rejected :
    ip_address "  " = none
    ∧ get_targets_from_request
        { scan_method := .ping, network := some "10.0.0.0/30", hosts := some ["  "] }
      = .ok ["10.0.0.1", "10.0.0.2"] := by
  constructor <;> decide

theorem networkHosts_length_le (n : IPv4Network) :
    (networkHosts n).length ≤ num_addresses n := by
  unfold networkHosts
  split <;> simp [num_addresses]

theorem hostTargets_error_of_bad (l : List String)
    (hbad : ∃ h ∈ l, pyStrip h ≠ "" ∧ ip_address (pyStrip h) = none) :
    ∃ a, ip_address a = none ∧ hostTargets l = .error (.invalidAddress a) := by
  induction l with
  | nil => simp at hbad
  | cons h t ih =>
    by_cases htrim : pyStrip h = ""
    · have hbad' : ∃ x ∈ t, pyStrip x ≠ "" ∧ ip_address (pyStrip x) = none := by
        rcases hbad with ⟨x, hx, hne, hnone⟩
        rcases List.mem_cons.mp hx with hx | hx
        · exact absurd (hx ▸ htrim) hne
        · exact ⟨x, hx, hne, hnone⟩
      obtain ⟨a, hnone, ha⟩ := ih hbad'
      exact ⟨a, hnone, by simp [hostTargets, htrim, ha]⟩
    · by_cases hip : (ip_address (pyStrip h)).isSome
      · have hbad' : ∃ x ∈ t, pyStrip x ≠ "" ∧ ip_address (pyStrip x) = none := by
          rcases hbad with ⟨x, hx, hne, hnone⟩
          rcases List.mem_cons.mp hx with hx | hx
          · subst hx
            rw [hnone] at hip
            simp at hip
          · exact ⟨x, hx, hne, hnone⟩
        obtain ⟨a, hnone, ha⟩ := ih hbad'
        refine ⟨a, hnone, ?_⟩
        simp [hostTargets, htrim, hip, ha, Except.map]
      · exact ⟨pyStrip h, Option.not_isSome_iff_eq_none.mp hip,
          by simp [hostTargets, htrim, hip]⟩

/-- C3 (amended): target resolution raises HTTP 400 before any probing when a
nonempty network string is malformed, when the network has more than 4096
addresses (in particular whenever it has more than 4096 usable hosts), and
when no targets remain at all; when the network part is absent or valid, a
host entry that is non-blank after stripping and is not a parseable IP raises
the invalid-address 400 — but whitespace-only host entries are silently
skipped (see the counterexample) rather than rejected; otherwise the
deduplicated, order-preserving target list is returned. -/
theorem resolver_validation (p : DiscoverRequest) :
    (∀ s, p.network = some s → s ≠ "" → ip_network s = none →
      get_targets_from_request p = .error .invalidNetwork) ∧
    (∀ s net, p.network = some s → s ≠ "" → ip_network s = some net →
      4096 < num_addresses net →
      get_targets_from_request p = .error (.networkTooLarge (num_addresses net))) ∧
    (∀ s net, p.network = some s → s ≠ "" → ip_network s = some net →
      4096 < (networkHosts net).length →
      get_targets_from_request p = .error (.networkTooLarge (num_addresses net))) ∧
    (∀ netT, networkTargets p = .ok netT →
      (∃ h ∈ p.hosts.getD [], pyStrip h ≠ "" ∧ ip_address (pyStrip h) = none) →
      ∃ a, ip_address a = none ∧
        get_targets_from_request p = .error (.invalidAddress a)) ∧
    (∀ netT hostT, networkTargets p = .ok netT →
      hostTargets (p.hosts.getD []) = .ok hostT →
      (dedupKeepFirst [] (netT ++ hostT) = [] →
        get_targets_from_request p = .error .noTargets) ∧
      (dedupKeepFirst [] (netT ++ hostT) ≠ [] →
        get_targets_from_request p = .ok (dedupKeepFirst [] (netT ++ hostT)))) ∧
    (∀ env e, get_targets_from_request p = .error e → discover_stream env p = .error e) := by
  refine ⟨?_, ?_, ?_, ?_, ?_, ?_⟩
  · intro s hs hne hnone
    have hN : networkTargets p = .error .invalidNetwork := by
      simp [networkTargets, hs, hne, hnone]
    simp [get_targets_from_request, hN]
  · intro s net hs hne hnet hlt
    have hN : networkTargets p = .error (.networkTooLarge (num_addresses net)) := by
      simp [networkTargets, hs, hne, hnet, hlt]
    simp [get_targets_from_request, hN]
  · intro s net hs hne hnet hlen
    have hlt : 4096 < num_addresses net :=
      lt_of_lt_of_le hlen (networkHosts_length_le net)
    have hN : networkTargets p = .error (.networkTooLarge (num_addresses net)) := by
      simp [networkTargets, hs, hne, hnet, hlt]
    simp [get_targets_from_request, hN]
  · intro netT hnetT hbad
    obtain ⟨a, hnone, ha⟩ := hostTargets_error_of_bad _ hbad
    exact ⟨a, hnone, by simp [get_targets_from_request, hnetT, ha]⟩
  · intro netT hostT hnetT hhostT
    constructor
    · intro hu
      simp [get_targets_from_request, hnetT, hhostT, hu]
    · intro hu
      simp [get_targets_from_request, hnetT, hhostT, hu]
  · intro env e he
    simp [discover_stream, he]

/-- Witness for `resolver_validation`: the malformed network "999.0.0.1/24"
is rejected with the invalid-network 400. -/
theorem resolver_validation_witness :
    get_targets_from_request { network := some "999.0.0.1/24" }
      = .error .invalidNetwork :=
  (resolver_validation _).1 "999.0.0.1/24" rfl (by decide) (by decide)

/-! ## C4: ARP strategy results -/

theorem mkArpActive_ip (e : ArpEntry) : (mkArpActive e).ip = e.ip := rfl

theorem mkArpInactive_ip (ip : String) : (mkArpInactive ip).ip = ip := rfl

theorem resultCountFor_append (t : String) (a b : List Event) :
    resultCountFor t (a ++ b) = resultCountFor t a + resultCountFor t b := by
  simp [resultCountFor, List.countP_append]

theorem resultCountFor_log (t m : String) (l : List Event) :
    resultCountFor t (Event.log m :: l) = resultCountFor t l := by
  simp [resultCountFor, List.countP_cons]

theorem resultCountFor_map_active (t : String) (l : List ArpEntry) :
    resultCountFor t (l.map fun e => Event.result (mkArpActive e))
      = l.countP (fun e => e.ip == t) := by
  simp only [resultCountFor, List.countP_map]
  refine List.countP_congr ?_
  intro e _
  simp [Function.comp, mkArpActive_ip]

theorem resultCountFor_map_inactive (t : String) (l : List String) :
    resultCountFor t (l.map fun ip => Event.result (mkArpInactive ip))
      = l.countP (fun ip => ip == t) := by
  simp only [resultCountFor, List.countP_map]
  refine List.countP_congr ?_
  intro ip _
  simp [Function.comp, mkArpInactive_ip]

theorem dedupKeepFirst_eq_self (seen : List String) (l : List String)
    (hd : l.Nodup) (hdisj : ∀ x ∈ l, x ∉ seen) : dedupKeepFirst seen l = l := by
  induction l generalizing seen with
  | nil => rfl
  | cons x xs ih =>
    have hx : x ∉ seen := hdisj x (List.mem_cons_self x xs)
    rw [dedupKeepFirst, if_neg hx]
    congr 1
    refine ih (x :: seen) (List.Nodup.of_cons hd) ?_
    intro y hy hmem
    rcases List.mem_cons.mp hmem with rfl | hys
    · exact (List.nodup_cons.mp hd).1 hy
    · exact hdisj y (List.mem_cons_of_mem _ hy) hys

theorem arp_found_subset (targets : List String) (entries : List ArpEntry) (x : String)
    (hx : x ∈ (entries.filter (fun e => decide (e.ip ∈ targets))).map ArpEntry.ip) :
    x ∈ entries.map ArpEntry.ip := by
  rcases List.mem_map.mp hx with ⟨e, he, rfl⟩
  exact List.mem_map.mpr ⟨e, (List.mem_filter.mp he).1, rfl⟩

theorem arp_mem_found (targets : List String) (entries : List ArpEntry) (t : String)
    (ht : t ∈ targets) (hmem : t ∈ entries.map ArpEntry.ip) :
    t ∈ (entries.filter (fun e => decide (e.ip ∈ targets))).map ArpEntry.ip := by
  rcases List.mem_map.mp hmem with ⟨e, he, rfl⟩
  exact List.mem_map.mpr ⟨e, List.mem_filter.mpr ⟨he, by simpa using ht⟩, rfl⟩

/-- C4 (amended): over an ARP scan whose target list has no duplicates (as
the resolver produces) and whose ARP table output lists each IP at most once,
every requested target yields exactly one result: targets present in the
table get the status=active result carrying the entry's normalised MAC,
every other target gets the synthesized status=inactive result, and no
result is emitted for an IP outside the target list.  Without the
at-most-once hypothesis on the table, the match loop emits one active result
per table occurrence of a target — see the counterexample. -/
theorem arp_results_partition (targets : List String) (entries : List ArpEntry)
    (hT : targets.Nodup) (hE : (entries.map ArpEntry.ip).Nodup) :
    (∀ t ∈ targets, resultCountFor t (discover_by_arp targets entries) = 1) ∧
    (∀ e ∈ entries, e.ip ∈ targets →
      Event.result (mkArpActive e) ∈ discover_by_arp targets entries) ∧
    (∀ t ∈ targets, t ∉ entries.map ArpEntry.ip →
      Event.result (mkArpInactive t) ∈ discover_by_arp targets entries) ∧
    (∀ ip, ip ∉ targets → resultCountFor ip (discover_by_arp targets entries) = 0) := by
  have hcount : ∀ t : String,
      resultCountFor t (discover_by_arp targets entries)
        = (entries.filter (fun e => decide (e.ip ∈ targets))).countP (fun e => e.ip == t)
          + ((dedupKeepFirst [] targets).filter (fun ip => decide
              (ip ∉ (entries.filter (fun e => decide (e.ip ∈ targets))).map
                ArpEntry.ip))).countP (fun ip => ip == t) := by
    intro t
    simp only [discover_by_arp]
    rw [show ∀ (a b : Event) (l : List Event), a :: b :: l = [a, b] ++ l from
      fun a b l => rfl]
    rw [resultCountFor_append, resultCountFor_append, resultCountFor_append]
    rw [resultCountFor_map_active, resultCountFor_map_inactive]
    simp [resultCountFor]
  refine ⟨?_, ?_, ?_, ?_⟩
  · intro t ht
    rw [hcount t, dedupKeepFirst_eq_self [] targets hT (by simp)]
    by_cases hmem : t ∈ entries.map ArpEntry.ip
    · have hfound := arp_mem_found targets entries t ht hmem
      have hactive : (entries.filter (fun e => decide (e.ip ∈ targets))).countP
          (fun e => e.ip == t) = 1 := by
        rw [List.countP_filter]
        have hcongr : entries.countP (fun e => e.ip == t && decide (e.ip ∈ targets))
            = entries.countP (fun e => e.ip == t) := by
          refine List.countP_congr ?_
          intro e _
          simp only [Bool.and_eq_true, decide_eq_true_eq, beq_iff_eq]
          exact ⟨fun h => h.1, fun h => ⟨h, h ▸ ht⟩⟩
        rw [hcongr]
        have : entries.countP (fun e => e.ip == t) = List.count t (entries.map ArpEntry.ip) := by
          rw [List.count_eq_countP, List.countP_map]
          rfl
        rw [this]
        exact List.count_eq_one_of_mem hE hmem
      have hinactive : (targets.filter (fun ip => decide
          (ip ∉ (entries.filter (fun e => decide (e.ip ∈ targets))).map
            ArpEntry.ip))).countP (fun ip => ip == t) = 0 := by
        rw [List.countP_filter]
        refine List.countP_eq_zero.mpr ?_
        intro a _ hcontra
        simp only [Bool.and_eq_true, decide_eq_true_eq, beq_iff_eq] at hcontra
        exact hcontra.2 (hcontra.1 ▸ hfound)
      omega
    · have hnotfound : t ∉ (entries.filter (fun e => decide (e.ip ∈ targets))).map
          ArpEntry.ip := fun hin => hmem (arp_found_subset targets entries t hin)
      have hactive : (entries.filter (fun e => decide (e.ip ∈ targets))).countP
          (fun e => e.ip == t) = 0 := by
        rw [List.countP_filter]
        refine List.countP_eq_zero.mpr ?_
        intro e he hcontra
        simp only [Bool.and_eq_true, decide_eq_true_eq, beq_iff_eq] at hcontra
        exact hmem (hcontra.1 ▸ List.mem_map.mpr ⟨e, he, rfl⟩)
      have hinactive : (targets.filter (fun ip => decide
          (ip ∉ (entries.filter (fun e => decide (e.ip ∈ targets))).map
            ArpEntry.ip))).countP (fun ip => ip == t) = 1 := by
        rw [List.countP_filter]
        have hcongr : targets.countP (fun ip => ip == t && decide
            (ip ∉ (entries.filter (fun e => decide (e.ip ∈ targets))).map ArpEntry.ip))
            = targets.countP (fun ip => ip == t) := by
          refine List.countP_congr ?_
          intro a _
          simp only [Bool.and_eq_true, decide_eq_true_eq, beq_iff_eq]
          exact ⟨fun h => h.1, fun h => ⟨h, h ▸ hnotfound⟩⟩
        rw [hcongr, show targets.countP (fun ip => ip == t) = List.count t targets from rfl]
        exact List.count_eq_one_of_mem hT ht
      omega
  · intro e he hmem
    simp only [discover_by_arp, List.mem_append, List.mem_map]
    exact Or.inl (Or.inr ⟨e, List.mem_filter.mpr ⟨he, by simpa using hmem⟩, rfl⟩)
  · intro t ht hmem
    have hnotfound : t ∉ (entries.filter (fun e => decide (e.ip ∈ targets))).map
        ArpEntry.ip := fun hin => hmem (arp_found_subset targets entries t hin)
    simp only [discover_by_arp, List.mem_append, List.mem_map]
    refine Or.inr ⟨t, ?_, rfl⟩
    rw [dedupKeepFirst_eq_self [] targets hT (by simp)]
    exact List.mem_filter.mpr ⟨ht, by simpa using hnotfound⟩
  · intro ip hip
    rw [hcount ip, dedupKeepFirst_eq_self [] targets hT (by simp)]
    have hactive : (entries.filter (fun e => decide (e.ip ∈ targets))).countP
        (fun e => e.ip == ip) = 0 := by
      rw [List.countP_filter]
      refine List.countP_eq_zero.mpr ?_
      intro e _ hcontra
      simp only [Bool.and_eq_true, decide_eq_true_eq, beq_iff_eq] at hcontra
      exact hip (hcontra.1 ▸ hcontra.2)
    have hinactive : (targets.filter (fun x => decide
        (x ∉ (entries.filter (fun e => decide (e.ip ∈ targets))).map
          ArpEntry.ip))).countP (fun x => x == ip) = 0 := by
      rw [List.countP_filter]
      refine List.countP_eq_zero.mpr ?_
      intro a ha hcontra
      simp only [Bool.and_eq_true, decide_eq_true_eq, beq_iff_eq] at hcontra
      exact hip (hcontra.1 ▸ ha)
    omega

/-- Witness for `arp_results_partition`: one target in the table, one not. -/
theorem arp_results_partition_witness :
    resultCountFor "10.0.0.1"
      (discover_by_arp ["10.0.0.1", "10.0.0.2"] [⟨"10.0.0.1", "b8:27:eb:aa:bb:cc"⟩]) = 1
    ∧ resultCountFor "10.0.0.2"
      (discover_by_arp ["10.0.0.1", "10.0.0.2"] [⟨"10.0.0.1", "b8:27:eb:aa:bb:cc"⟩]) = 1
    ∧ resultCountFor "10.0.0.3"
      (discover_by_arp ["10.0.0.1", "10.0.0.2"] [⟨"10.0.0.1", "b8:27:eb:aa:bb:cc"⟩]) = 0 :=
  ⟨(arp_results_partition ["10.0.0.1", "10.0.0.2"] [⟨"10.0.0.1", "b8:27:eb:aa:bb:cc"⟩]
      (by decide) (by decide)).1 "10.0.0.1" (by decide),
   (arp_results_partition ["10.0.0.1", "10.0.0.2"] [⟨"10.0.0.1", "b8:27:eb:aa:bb:cc"⟩]
      (by decide) (by decide)).1 "10.0.0.2" (by decide),
   (arp_results_partition ["10.0.0.1", "10.0.0.2"] [⟨"10.0.0.1", "b8:27:eb:aa:bb:cc"⟩]
      (by decide) (by decide)).2.2.2 "10.0.0.3" (by decide)⟩

/-- C4 counterexample: with single target 10.0.0.1 listed twice in the ARP
table output, the scan emits two `result` events for that target — the match
loop of `discover_by_arp` has no per-target dedup — contradicting "no target
yields more than one result". -/
theorem arp_duplicate_entry_double_result :
    resultCountFor "10.0.0.1"
      (discover_by_arp ["10.0.0.1"]
        [⟨"10.0.0.1", "b8:27:eb:aa:bb:cc"⟩, ⟨"10.0.0.1", "b8:27:eb:aa:bb:cc"⟩]) = 2 := by
  decide

/-! ## C5: relay teardown -/

/-- C5 counterexample: a session that authenticates with the static app token
and runs both pumps to first completion, but whose remote connection reports
`is_connected == False` at cleanup (e.g. the remote end already dropped): the
`finally` guard skips `conn.close()`, so the close method is invoked zero
times rather than exactly once. -/
theorem ws_relay_close_skipped_when_disconnected :
    countAction WsAction.connClose
      (ssh_websocket_endpoint
        ⟨some "tok", ⟨"tok", ""⟩, fun _ => .invalid, .pumps .readFromSsh, false⟩).1 = 0 := by
  decide

/-- C5 (amended): in the relay, once both pump tasks run, whichever finishes
first — by success, error, or cancellation — the other is cancelled and then
awaited before the final teardown; in the final cleanup `conn.close()` is
invoked exactly once whenever a remote connection was established and still
reports `is_connected` — including when an unexpected exception ended the
session — and zero times when `conn.is_connected` is false at cleanup (see
the counterexample), the guard `if 'conn' in locals() and conn.is_connected`
also skipping it when the connection was never obtained. -/
theorem ws_relay_teardown (env : WsEnv)
    (hAuth : validate_token env.settings env.decode (_extract_token env.tokenParam)
      .admin = .ok true) :
    (∀ f, env.course = .pumps f →
      (ssh_websocket_endpoint env).1
        = [WsAction.accept, WsAction.getConn, WsAction.invokeShell,
           WsAction.cancelTask f.other, WsAction.awaitTask f.other]
          ++ (if env.connIsConnected then [WsAction.connClose] else [])) ∧
    (∀ f, env.course = .pumps f → env.connIsConnected = true →
      countAction WsAction.connClose (ssh_websocket_endpoint env).1 = 1) ∧
    (∀ msg cd, env.course = .unexpectedAfterConn msg cd → env.connIsConnected = true →
      countAction WsAction.connClose (ssh_websocket_endpoint env).1 = 1) ∧
    (env.connIsConnected = false →
      countAction WsAction.connClose (ssh_websocket_endpoint env).1 = 0) := by
  refine ⟨?_, ?_, ?_, ?_⟩
  · intro f hc
    simp [ssh_websocket_endpoint, hAuth, hc]
  · intro f hc hconn
    simp [ssh_websocket_endpoint, hAuth, hc, hconn, countAction]
  · intro msg cd hc hconn
    cases cd <;> simp [ssh_websocket_endpoint, hAuth, hc, hconn, countAction]
  · intro hconn
    rcases hcourse : env.course with detail | ⟨msg, cd⟩ | f
    · simp [ssh_websocket_endpoint, hAuth, hcourse, countAction]
    · cases cd <;> simp [ssh_websocket_endpoint, hAuth, hcourse, hconn, countAction]
    · simp [ssh_websocket_endpoint, hAuth, hcourse, hconn, countAction]

/-- Witness for `ws_relay_teardown`: static-app-token auth, write pump
finishes first, connection still connected at cleanup. -/
theorem ws_relay_teardown_witness :
    countAction WsAction.connClose
      (ssh_websocket_endpoint
        ⟨some "tok", ⟨"tok", ""⟩, fun _ => .invalid, .pumps .writeToSsh, true⟩).1 = 1 :=
  (ws_relay_teardown
    ⟨some "tok", ⟨"tok", ""⟩, fun _ => .invalid, .pumps .writeToSsh, true⟩
    (by decide)).2.1 .writeToSsh rfl rfl

/-! ## C8: WebSocket authentication gate -/

/-- C8 counterexample: with a JWT secret configured and a garbage token that
is neither the static app token nor a decodable JWT, `validate_token` raises
`HTTPException(401)` out of the endpoint before `accept`: the handshake is not
rejected by a close with code 1008 — no close frame is sent by the handler at
all — though it still happens before any SSH side effect. -/
theorem ws_auth_invalid_token_raises_instead_of_1008 :
    ssh_websocket_endpoint
        ⟨some "garbage", ⟨"", "secret"⟩, fun _ => .invalid, .pumps .readFromSsh, true⟩
      = ([], some ⟨401, "Token inválido."⟩) := by
  decide

/-- C8 (amended): a missing/blank token, or a token that authenticates with
insufficient role, makes the handshake close with code 1008 before `accept`
and before any SSH side effect (no credential lookup, no remote connection);
but a non-empty token that is neither the static app token nor a decodable
JWT makes `validate_token` raise its 401/403 `HTTPException` out of the
endpoint — still before `accept` and any SSH side effect, yet with no 1008
close frame sent by the handler (see the counterexample); errors after the
accepted handshake close with the distinct code 1011. -/
theorem ws_auth_gate (env : WsEnv) :
    (_extract_token env.tokenParam = none →
      ssh_websocket_endpoint env = ([WsAction.closeWs 1008], none)) ∧
    (validate_token env.settings env.decode (_extract_token env.tokenParam) .admin
        = .ok false →
      ssh_websocket_endpoint env = ([WsAction.closeWs 1008], none)) ∧
    (∀ e, validate_token env.settings env.decode (_extract_token env.tokenParam) .admin
        = .error e →
      ssh_websocket_endpoint env = ([], some e)) ∧
    (∀ detail, validate_token env.settings env.decode (_extract_token env.tokenParam)
        .admin = .ok true →
      env.course = .connHttpError detail →
      (ssh_websocket_endpoint env).1
        = [WsAction.accept, WsAction.getConn,
           WsAction.sendText ("\r\nError: " ++ detail ++ "\r\n"),
           WsAction.closeWs 1011]) ∧
    (∀ msg, validate_token env.settings env.decode (_extract_token env.tokenParam)
        .admin = .ok true →
      env.course = .unexpectedAfterConn msg false →
      WsAction.closeWs 1011 ∈ (ssh_websocket_endpoint env).1) := by
  refine ⟨?_, ?_, ?_, ?_, ?_⟩
  · intro hnone
    have hval : validate_token env.settings env.decode
        (_extract_token env.tokenParam) .admin = .ok false := by
      rw [hnone]
      rfl
    simp [ssh_websocket_endpoint, hval]
  · intro hval
    simp [ssh_websocket_endpoint, hval]
  · intro e hval
    simp [ssh_websocket_endpoint, hval]
  · intro detail hval hc
    simp [ssh_websocket_endpoint, hval, hc]
  · intro msg hval hc
    simp [ssh_websocket_endpoint, hval, hc]

/-- Witness for `ws_auth_gate`: a request with no token parameter is closed
with 1008. -/
theorem ws_auth_gate_witness :
    ssh_websocket_endpoint ⟨none, ⟨"", ""⟩, fun _ => .invalid, .pumps .readFromSsh, true⟩
      = ([WsAction.closeWs 1008], none) :=
  (ws_auth_gate ⟨none, ⟨"", ""⟩, fun _ => .invalid, .pumps .readFromSsh, true⟩).1 rfl

/-! ## C6: probe failures downgraded to inactive results -/

/-- C6: in the SSH-banner strategy, for every target whose TCP connection to
port 22 times out or fails with an OS-level connection error, the per-target
worker swallows the exception and emits exactly its probing log followed by
one status=inactive result: the failure never propagates and never aborts the
scan. -/
theorem ssh_worker_downgrades_probe_failures (probe : String → ConnectOutcome)
    (dns : String → Option String) (payload : DiscoverRequest) (ip : String)
    (h : probe ip = .failTimeout ∨ probe ip = .failOsError) :
    sshWorkerEvents probe dns payload ip
      = [Event.log ("Probando SSH en " ++ ip ++ "..."),
         Event.result (sshInactiveResult ip)]
    ∧ countResults (sshWorkerEvents probe dns payload ip) = 1
    ∧ resultCountFor ip (sshWorkerEvents probe dns payload ip) = 1 := by
  rcases h with h | h <;>
    simp [sshWorkerEvents, h, countResults, resultCountFor, isResultEvent,
      List.countP_cons, sshInactiveResult]

/-- Witness for `ssh_worker_downgrades_probe_failures` at a concrete target
and a probe that times out. -/
theorem ssh_worker_downgrades_probe_failures_witness :
    sshWorkerEvents (fun _ => ConnectOutcome.failTimeout) (fun _ => none) {} "10.0.0.5"
      = [Event.log ("Probando SSH en " ++ "10.0.0.5" ++ "..."),
         Event.result (sshInactiveResult "10.0.0.5")]
    ∧ countResults (sshWorkerEvents (fun _ => ConnectOutcome.failTimeout)
        (fun _ => none) {} "10.0.0.5") = 1
    ∧ resultCountFor "10.0.0.5" (sshWorkerEvents (fun _ => ConnectOutcome.failTimeout)
        (fun _ => none) {} "10.0.0.5") = 1 :=
  ssh_worker_downgrades_probe_failures (fun _ => ConnectOutcome.failTimeout)
    (fun _ => none) {} "10.0.0.5" (Or.inl rfl)

/-! ## C10: ping probe independent of the request timeout -/

/-- C10: the per-host ping probe is independent of the request's `timeout`
field: any two valid requests that differ only in `timeout` build the same
ping command line — which carries a fixed 0.5 s (Linux) / 500 ms (Windows)
per-packet timeout — and, given the same `run_command` outputs, the worker
produces identical events for every target. -/
theorem ping_worker_independent_of_timeout (isWindows : Bool) (run : String → String)
    (ip : String) (p₁ p₂ : DiscoverRequest)
    (hm : p₁.scan_method = p₂.scan_method) (hn : p₁.network = p₂.network)
    (hh : p₁.hosts = p₂.hosts) (hc : p₁.max_concurrency = p₂.max_concurrency)
    (hd : p₁.include_reverse_dns = p₂.include_reverse_dns) :
    pingWorkerEvents isWindows run p₁ ip = pingWorkerEvents isWindows run p₂ ip
    ∧ ping_command false = "ping -c 1 -W 0.5"
    ∧ ping_command true = "ping -n 1 -w 500" :=
  ⟨rfl, rfl, rfl⟩

/-- Witness for `ping_worker_independent_of_timeout`: two requests equal
except for timeouts 1 s and 2 s. -/
theorem ping_worker_independent_of_timeout_witness :
    pingWorkerEvents false (fun _ => "") { timeout := 1 } "10.0.0.1"
      = pingWorkerEvents false (fun _ => "") { timeout := 2 } "10.0.0.1"
    ∧ ping_command false = "ping -c 1 -W 0.5"
    ∧ ping_command true = "ping -n 1 -w 500" :=
  ping_worker_independent_of_timeout false (fun _ => "") "10.0.0.1"
    { timeout := 1 } { timeout := 2 } rfl rfl rfl rfl rfl

end RaspiDeployer
